import Mathlib

/-!
Shallow embedding of the Solana-USDC-Listener repository.

Two deployment variants are modelled:
* the serverless (Supabase Edge Function) variant,
  `src/supabase/functions/solana-transaction-handler/index.ts`, whose
  transaction-interpretation core is `fetchAndProcessSolanaTransaction`;
* the long-running Express server variant (`src/unnamed/part_001`), whose
  core is `processTransaction`.

JavaScript numbers are modelled by `JSNum`: an exact rational, NaN, or a
signed infinity.  The arithmetic the code performs (subtraction, division
by the constant `LAMPORTS_PER_SOL`) is modelled exactly over ℚ; the
claims under verification never depend on binary floating-point rounding.
JavaScript string truthiness ("" is falsy, every other string truthy) is
modelled by `envTruthy` / `truthyOpt`.  The remote RPC fetch performed
inside both cores is modelled by passing the fetched
`ParsedTransactionWithMeta` (or `none`) as an explicit argument, and the
module-global environment variables `USDC_MINT` / `SOLANA_ADDR` as an
explicit `Env` record; the functions are otherwise transcribed clause by
clause from the TypeScript source.
-/

namespace SolanaListener

/-- A JavaScript number as observed by this program: an exact rational,
NaN, or a signed infinity. -/
inductive JSNum where
  | num : ℚ → JSNum
  | posInf : JSNum
  | negInf : JSNum
  | nan : JSNum
deriving DecidableEq, Repr

/-- JavaScript subtraction `a - b` on `JSNum`. -/
def JSNum.sub : JSNum → JSNum → JSNum
  | .num a, .num b => .num (a - b)
  | .num _, .posInf => .negInf
  | .num _, .negInf => .posInf
  | .posInf, .num _ => .posInf
  | .posInf, .negInf => .posInf
  | .negInf, .num _ => .negInf
  | .negInf, .posInf => .negInf
  | _, _ => .nan

/-- Numeric value of a list of decimal digit characters. -/
def digitsVal (ds : List Char) : Nat :=
  ds.foldl (fun n c => 10 * n + (c.toNat - 48)) 0

/-- JavaScript `parseFloat`: skip leading whitespace, optional sign,
either the keyword Infinity or the longest decimal-literal prefix
(digits, optional fraction, optional exponent); if no numeric prefix
exists the result is NaN.  Values are exact rationals. -/
def jsParseFloat (s : String) : JSNum :=
  let cs0 := s.data.dropWhile (fun c => c.isWhitespace)
  let signNeg : Bool := match cs0 with
    | c :: _ => c = '-'
    | [] => false
  let cs := match cs0 with
    | '+' :: rest => rest
    | '-' :: rest => rest
    | _ => cs0
  if cs.take 8 = "Infinity".data then
    if signNeg then JSNum.negInf else JSNum.posInf
  else
    let intDigits := cs.takeWhile Char.isDigit
    let cs1 := cs.drop intDigits.length
    let fracDigits := match cs1 with
      | '.' :: rest => rest.takeWhile Char.isDigit
      | _ => []
    let cs2 := match cs1 with
      | '.' :: rest => rest.dropWhile Char.isDigit
      | _ => cs1
    if intDigits.isEmpty && fracDigits.isEmpty then JSNum.nan
    else
      let mantissa : ℚ :=
        (digitsVal intDigits : ℚ) + (digitsVal fracDigits : ℚ) / (10 : ℚ) ^ fracDigits.length
      let expVal : Int := match cs2 with
        | 'e' :: '+' :: rest => if (rest.takeWhile Char.isDigit).isEmpty then 0 else (digitsVal (rest.takeWhile Char.isDigit) : Int)
        | 'e' :: '-' :: rest => if (rest.takeWhile Char.isDigit).isEmpty then 0 else -(digitsVal (rest.takeWhile Char.isDigit) : Int)
        | 'e' :: rest => if (rest.takeWhile Char.isDigit).isEmpty then 0 else (digitsVal (rest.takeWhile Char.isDigit) : Int)
        | 'E' :: '+' :: rest => if (rest.takeWhile Char.isDigit).isEmpty then 0 else (digitsVal (rest.takeWhile Char.isDigit) : Int)
        | 'E' :: '-' :: rest => if (rest.takeWhile Char.isDigit).isEmpty then 0 else -(digitsVal (rest.takeWhile Char.isDigit) : Int)
        | 'E' :: rest => if (rest.takeWhile Char.isDigit).isEmpty then 0 else (digitsVal (rest.takeWhile Char.isDigit) : Int)
        | _ => 0
      let base : ℚ := if signNeg then -mantissa else mantissa
      JSNum.num (base * (10 : ℚ) ^ expVal)

/-- Field `uiTokenAmount` of a parsed token balance: only its
`uiAmountString` field is read by this program. -/
structure UiTokenAmount where
  uiAmountString : Option String
deriving DecidableEq, Repr

/-- One entry of `meta.preTokenBalances` / `meta.postTokenBalances`.
`mint` and `owner` are optional at the wire level; the Express variant
guards them with `|| ''` while the serverless variant compares them
directly. -/
structure TokenBalance where
  mint : Option String
  owner : Option String
  uiTokenAmount : UiTokenAmount
deriving DecidableEq, Repr

/-- The transaction metadata read by both cores. -/
structure TxMeta where
  preBalances : List ℚ
  postBalances : List ℚ
  preTokenBalances : Option (List TokenBalance)
  postTokenBalances : Option (List TokenBalance)
deriving DecidableEq, Repr

/-- A `ParsedTransactionWithMeta` as read by both cores: the base58
account keys of the message, the optional metadata, and the optional
block time (epoch seconds). -/
structure ParsedTransactionWithMeta where
  accountKeys : List String
  meta : Option TxMeta
  blockTime : Option Int
deriving DecidableEq, Repr

/-- The watch criteria, i.e. the environment variables `USDC_MINT` and
`SOLANA_ADDR` read at module scope (`none` models an unset variable). -/
structure Env where
  usdcMint : Option String
  solanaAddr : Option String
deriving DecidableEq, Repr

/-- JavaScript truthiness of a possibly-absent string: unset and the
empty string are falsy. -/
def envTruthy : Option String → Bool
  | none => false
  | some s => !s.isEmpty

/-- The output record of both cores (`TransactionResult` in both
sources); `uiAmount` is the balance change. -/
structure TransactionResult where
  signature : String
  preAmount : JSNum
  postAmount : JSNum
  uiAmount : JSNum
  timestamp : Option String
deriving DecidableEq, Repr

/-- Zero-pad a natural number to two decimal digits. -/
def pad2 (n : Nat) : String :=
  if n < 10 then "0" ++ toString n else toString n

/-- Zero-pad a natural number to four decimal digits. -/
def pad4 (n : Nat) : String :=
  if n < 10 then "000" ++ toString n
  else if n < 100 then "00" ++ toString n
  else if n < 1000 then "0" ++ toString n
  else toString n

/-- Zero-pad a natural number to six decimal digits. -/
def pad6 (n : Nat) : String :=
  if n < 10 then "00000" ++ toString n
  else if n < 100 then "0000" ++ toString n
  else if n < 1000 then "000" ++ toString n
  else if n < 10000 then "00" ++ toString n
  else if n < 100000 then "0" ++ toString n
  else toString n

/-- Model of `new Date(t * 1000).toISOString()` for an integer number of epoch
seconds `t`: UTC civil date computed by the standard era/day-of-era
algorithm, rendered as an ISO-8601 instant with a `.000` millisecond
field. -/
def isoTimestamp (t : Int) : String :=
  let days := t.ediv 86400
  let sod := (t.emod 86400).toNat
  let hh := sod / 3600
  let mm := sod / 60 % 60
  let ss := sod % 60
  let z := days + 719468
  let era := z.ediv 146097
  let doe := (z.emod 146097).toNat
  let yoe := (doe - doe / 1460 + doe / 36524 - doe / 146096) / 365
  let y0 : Int := (yoe : Int) + era * 400
  let doy := doe - (365 * yoe + yoe / 4 - yoe / 100)
  let mp := (5 * doy + 2) / 153
  let d := doy - (153 * mp + 2) / 5 + 1
  let m := if mp < 10 then mp + 3 else mp - 9
  let y := if m ≤ 2 then y0 + 1 else y0
  let yearStr :=
    if 0 ≤ y ∧ y < 10000 then pad4 y.toNat
    else if y < 0 then "-" ++ pad6 (-y).toNat
    else "+" ++ pad6 y.toNat
  yearStr ++ "-" ++ pad2 m ++ "-" ++ pad2 d ++ "T" ++ pad2 hh ++ ":" ++
    pad2 mm ++ ":" ++ pad2 ss ++ ".000Z"

/-- Model of `tx.blockTime ? new Date(tx.blockTime * 1000).toISOString() : null`:
a block time of 0 is falsy in JavaScript, so it yields `null` exactly
like an absent block time. -/
def jsTimestamp : Option Int → Option String
  | none => none
  | some bt => if bt = 0 then none else some (isoTimestamp bt)

/-- Constant `LAMPORTS_PER_SOL`, the fixed smallest-unit divisor 10^9. -/
def lamportsPerSol : ℚ := 1000000000

/-- Model of `b?.uiTokenAmount?.uiAmountString ? parseFloat(...) : 0`, shared by
both cores: an absent balance entry, an absent amount string, or an
empty (falsy) amount string all give 0; a non-empty string is handed to
`parseFloat`. -/
def tokenAmount : Option TokenBalance → JSNum
  | none => JSNum.num 0
  | some tb =>
    match tb.uiTokenAmount.uiAmountString with
    | none => JSNum.num 0
    | some s => if s.isEmpty then JSNum.num 0 else jsParseFloat s

/-- Model of the JavaScript `toUpperCase()` call on the asset selector (ASCII
case-folding, matching JavaScript on the base58 / sentinel strings this
program compares). -/
def jsToUpper (s : String) : String :=
  String.mk (s.data.map Char.toUpper)

/-- Token-balance predicate of the serverless core:
`b.mint === USDC_MINT && b.owner === SOLANA_ADDR`. -/
def servMatch (mint addr : String) (b : TokenBalance) : Bool :=
  b.mint == some mint && b.owner == some addr

/-- Token-balance predicate of the Express core:
`(balance.mint || '') === USDC_MINT && (balance.owner || '') === SOLANA_ADDR`. -/
def exprMatch (mint addr : String) (b : TokenBalance) : Bool :=
  b.mint.getD "" == mint && b.owner.getD "" == addr

/-- Amount pair computed by the serverless core once the guards have
passed: the native-coin branch when `USDC_MINT.toUpperCase() === 'SOL'`
(account-key lookup, lamport balances divided by `LAMPORTS_PER_SOL`,
missing entries defaulting to 0), else the token branch (independent
`find` over the pre- and post- token balance lists). -/
def servAmounts (mint addr : String) (t : ParsedTransactionWithMeta)
    (meta : TxMeta) : JSNum × JSNum :=
  if jsToUpper mint == "SOL" then
    match t.accountKeys.findIdx? (fun k => k == addr) with
    | none => (JSNum.num 0, JSNum.num 0)
    | some i =>
        (JSNum.num ((meta.preBalances[i]?).getD 0 / lamportsPerSol),
         JSNum.num ((meta.postBalances[i]?).getD 0 / lamportsPerSol))
  else
    (tokenAmount (meta.preTokenBalances.bind (List.find? (servMatch mint addr))),
     tokenAmount (meta.postTokenBalances.bind (List.find? (servMatch mint addr))))

/-- The serverless transaction-interpretation core
`fetchAndProcessSolanaTransaction` of
`src/supabase/functions/solana-transaction-handler/index.ts`, with the
RPC result passed in as `tx`. -/
def fetchAndProcessSolanaTransaction (env : Env)
    (tx : Option ParsedTransactionWithMeta) (signature : String) :
    Option TransactionResult :=
  if !(envTruthy env.usdcMint && envTruthy env.solanaAddr) then none
  else
    match tx with
    | none => none
    | some t =>
      match t.meta with
      | none => none
      | some meta =>
        let a := servAmounts (env.usdcMint.getD "") (env.solanaAddr.getD "") t meta
        some {
          signature := signature
          preAmount := a.1
          postAmount := a.2
          uiAmount := a.2.sub a.1
          timestamp := jsTimestamp t.blockTime }

/-- The Express transaction-interpretation core `processTransaction` of
`src/unnamed/part_001`, with the RPC result passed in as `tx`.  It has
no native-coin branch: the selector is always treated as a token mint. -/
def processTransaction (env : Env)
    (tx : Option ParsedTransactionWithMeta) (signature : String) :
    Option TransactionResult :=
  match tx with
  | none => none
  | some t =>
    match t.meta with
    | none => none
    | some meta =>
      if !(envTruthy env.usdcMint && envTruthy env.solanaAddr) then none
      else
        let mint := env.usdcMint.getD ""
        let addr := env.solanaAddr.getD ""
        let preB := meta.preTokenBalances.bind (List.find? (exprMatch mint addr))
        let postB := meta.postTokenBalances.bind (List.find? (exprMatch mint addr))
        some {
          signature := signature
          preAmount := tokenAmount preB
          postAmount := tokenAmount postB
          uiAmount := (tokenAmount postB).sub (tokenAmount preB)
          timestamp := jsTimestamp t.blockTime }

/-- One element of a webhook payload array (or of `event.transaction`):
only its `signature` field is read. -/
structure WebhookElem where
  signature : Option String
deriving DecidableEq, Repr

/-- A parsed webhook JSON body, capturing exactly the features the
handlers inspect: `arrayElems` is `some` iff `Array.isArray(body)` (its
value the array's elements), `eventTransaction` models
`body.event?.transaction` when that is an array, and `signature` models
a direct `body.signature` field.  (A JavaScript value can be an array
and still carry object properties, so all three may be present.) -/
structure WebhookBody where
  arrayElems : Option (List WebhookElem)
  eventTransaction : Option (List WebhookElem)
  signature : Option String
deriving DecidableEq, Repr

/-- Truthiness filter on an optional string: `some ""` and `none` are
both falsy, collapsing to `none`. -/
def truthyOpt : Option String → Option String
  | none => none
  | some s => if s.isEmpty then none else some s

/-- Model of `body.event?.transaction?.[0]?.signature` coerced through a JS
truthiness check. -/
def shape2Signature (body : WebhookBody) : Option String :=
  truthyOpt ((body.eventTransaction.bind List.head?).bind WebhookElem.signature)

/-- Signature extraction of the serverless webhook handler: the three
tolerated shapes are tried in order — (1) non-empty array whose first
element has a truthy `signature`, (2) nested `event.transaction` array,
(3) direct `signature` field — first match wins. -/
def extractWebhookSignature (body : WebhookBody) : Option String :=
  let shape1 := match body.arrayElems with
    | some (e :: _) => truthyOpt e.signature
    | _ => none
  match shape1 with
  | some s => some s
  | none =>
    match shape2Signature body with
    | some s => some s
    | none => truthyOpt body.signature

/-- Signature extraction of the Express webhook handler: it reads ONLY
`req.body.event?.transaction?.[0]?.signature` (shape 2). -/
def expressWebhookSignature (body : WebhookBody) : Option String :=
  shape2Signature body

/-- The serverless webhook handler `handleWebhookPost`, returning the
HTTP status together with the number of ledger fetches it performed.
The ledger client is the explicit function `ledger`; `storeOk` says
whether the upsert into the store succeeds. -/
def handleWebhookPost (env : Env)
    (ledger : String → Option ParsedTransactionWithMeta) (storeOk : Bool)
    (body : WebhookBody) : Nat × Nat :=
  match extractWebhookSignature body with
  | none => (400, 0)
  | some sig =>
    match fetchAndProcessSolanaTransaction env (ledger sig) sig with
    | none => (404, 1)
    | some _ => if storeOk then (200, 1) else (500, 1)

/-- The Express webhook handler `app.post('/api/webhook')`, returning
the HTTP status together with the number of ledger fetches performed. -/
def expressWebhookPost (env : Env)
    (ledger : String → Option ParsedTransactionWithMeta)
    (body : WebhookBody) : Nat × Nat :=
  match expressWebhookSignature body with
  | none => (400, 0)
  | some sig =>
    match processTransaction env (ledger sig) sig with
    | none => (404, 1)
    | some _ => (200, 1)

/-- The row shape persisted in `solana_transactions`
(`StoredTransactionData` in the source). -/
structure StoredTransactionData where
  signature : String
  pre_amount : JSNum
  post_amount : JSNum
  ui_amount : JSNum
  transaction_timestamp : Option String
deriving DecidableEq, Repr

/-- Model of `fetchTransactionFromDb`: a select-by-signature against the store;
the PGRST116 "no rows" error is collapsed to a plain `none`.  (The
store is the explicit lookup function `store`; defined in the source
but never called by any handler.) -/
def fetchTransactionFromDb (store : String → Option StoredTransactionData)
    (signature : String) : Option StoredTransactionData :=
  store signature

/-- Response of the serverless GET handler. -/
inductive GetResponse where
  | badRequest
  | notFound (signature : String)
  | ok (signature : String) (tokenTransfers : JSNum)
      (timestamp : Option String) (source : String)
deriving DecidableEq, Repr

/-- The serverless GET handler `handleGetTransaction`, returning the
response together with (ledger fetches performed, store reads
performed).  Transcribed from the source: it calls
`fetchAndProcessSolanaTransaction` directly and never touches the
store, so the store-read counter is 0 on every path and the `store`
argument is never consulted. -/
def handleGetTransaction (env : Env)
    (store : String → Option StoredTransactionData)
    (ledger : String → Option ParsedTransactionWithMeta)
    (signature : String) : GetResponse × Nat × Nat :=
  if signature.isEmpty then (.badRequest, 0, 0)
  else
    match fetchAndProcessSolanaTransaction env (ledger signature) signature with
    | none => (.notFound signature, 1, 0)
    | some r => (.ok r.signature r.uiAmount r.timestamp "live_solana_api", 1, 0)

/-! ## Helper lemmas -/

/-- Success-shape of the serverless core: extraction returns `some r`
exactly when the record is present with metadata and both criteria are
truthy, and then `r` is determined by `servAmounts` and the block time. -/
theorem serv_eq_some_iff (env : Env) (tx : Option ParsedTransactionWithMeta)
    (sig : String) (r : TransactionResult) :
    fetchAndProcessSolanaTransaction env tx sig = some r ↔
      ∃ t meta, tx = some t ∧ t.meta = some meta ∧
        (envTruthy env.usdcMint && envTruthy env.solanaAddr) = true ∧
        r = ⟨sig,
          (servAmounts (env.usdcMint.getD "") (env.solanaAddr.getD "") t meta).1,
          (servAmounts (env.usdcMint.getD "") (env.solanaAddr.getD "") t meta).2,
          ((servAmounts (env.usdcMint.getD "") (env.solanaAddr.getD "") t meta).2).sub
            ((servAmounts (env.usdcMint.getD "") (env.solanaAddr.getD "") t meta).1),
          jsTimestamp t.blockTime⟩ := by
  by_cases hc : (envTruthy env.usdcMint && envTruthy env.solanaAddr) = true
  · cases tx with
    | none => simp [fetchAndProcessSolanaTransaction, hc]
    | some t =>
      cases hm : t.meta with
      | none => simp [fetchAndProcessSolanaTransaction, hc, hm]
      | some meta =>
        simp only [fetchAndProcessSolanaTransaction, hc, Bool.not_true,
          Bool.false_eq_true, if_false, hm, Option.some.injEq]
        constructor
        · intro h
          exact ⟨t, meta, rfl, hm, trivial, h.symm⟩
        · rintro ⟨t', meta', ht', hm', _, hr⟩
          cases ht'
          rw [hm] at hm'
          cases hm'
          exact hr.symm
  · simp [fetchAndProcessSolanaTransaction, hc]

/-- Success-shape of the Express core. -/
theorem expr_eq_some_iff (env : Env) (tx : Option ParsedTransactionWithMeta)
    (sig : String) (r : TransactionResult) :
    processTransaction env tx sig = some r ↔
      ∃ t meta, tx = some t ∧ t.meta = some meta ∧
        (envTruthy env.usdcMint && envTruthy env.solanaAddr) = true ∧
        r = ⟨sig,
          tokenAmount (meta.preTokenBalances.bind
            (List.find? (exprMatch (env.usdcMint.getD "") (env.solanaAddr.getD "")))),
          tokenAmount (meta.postTokenBalances.bind
            (List.find? (exprMatch (env.usdcMint.getD "") (env.solanaAddr.getD "")))),
          (tokenAmount (meta.postTokenBalances.bind
            (List.find? (exprMatch (env.usdcMint.getD "") (env.solanaAddr.getD ""))))).sub
            (tokenAmount (meta.preTokenBalances.bind
              (List.find? (exprMatch (env.usdcMint.getD "") (env.solanaAddr.getD ""))))),
          jsTimestamp t.blockTime⟩ := by
  cases tx with
  | none => simp [processTransaction]
  | some t =>
    cases hm : t.meta with
    | none => simp [processTransaction, hm]
    | some meta =>
      by_cases hc : (envTruthy env.usdcMint && envTruthy env.solanaAddr) = true
      · simp only [processTransaction, hc, Bool.not_true, Bool.false_eq_true,
          if_false, hm, Option.some.injEq]
        constructor
        · intro h
          exact ⟨t, meta, rfl, hm, trivial, h.symm⟩
        · rintro ⟨t', meta', ht', hm', _, hr⟩
          cases ht'
          rw [hm] at hm'
          cases hm'
          exact hr.symm
      · simp [processTransaction, hm, hc]

/-- Lemma: `List.find?` respects pointwise-equal predicates. -/
theorem find?_pred_congr {α : Type} (p q : α → Bool) (h : ∀ a, p a = q a) :
    ∀ l : List α, l.find? p = l.find? q := by
  intro l
  induction l with
  | nil => rfl
  | cons a t ih => simp [List.find?_cons, h a, ih]

/-- When both criteria strings are non-empty, the serverless and
Express token-balance predicates agree. -/
theorem servMatch_eq_exprMatch (mint addr : String) (hm : mint ≠ "")
    (ha : addr ≠ "") (b : TokenBalance) :
    servMatch mint addr b = exprMatch mint addr b := by
  unfold servMatch exprMatch
  cases hbm : b.mint with
  | none =>
    have : ("" == mint) = false := by
      simp [hm.symm]
    simp [this]
  | some m =>
    cases hbo : b.owner with
    | none =>
      have : ("" == addr) = false := by
        simp [ha.symm]
      simp [this]
    | some o => simp

/-- A truthy optional string is a non-empty `some`. -/
theorem envTruthy_getD_ne (o : Option String) (h : envTruthy o = true) :
    o.getD "" ≠ "" := by
  intro hEq
  cases o with
  | none => simp [envTruthy] at h
  | some s =>
    simp only [Option.getD_some] at hEq
    subst hEq
    simp only [envTruthy, Bool.not_eq_true'] at h
    have hT : ("" : String).isEmpty = true := rfl
    rw [hT] at h
    exact Bool.noConfusion h

/-- Lemma: `jsTimestamp` is `none` exactly for an absent or zero block time. -/
theorem jsTimestamp_eq_none_iff (bt : Option Int) :
    jsTimestamp bt = none ↔ bt = none ∨ bt = some 0 := by
  cases bt with
  | none => simp [jsTimestamp]
  | some v =>
    by_cases hv : v = 0 <;> simp [jsTimestamp, hv]

/-! ## Concrete fixtures used by witnesses and counterexamples -/

/-- Watch criteria with a token-mint selector. -/
def envUsdc : Env := ⟨some "USDC", some "A"⟩

/-- Watch criteria with the native-coin sentinel selector. -/
def envSolC : Env := ⟨some "SOL", some "A"⟩

/-- A transaction whose only matching token balance entry carries the
malformed amount string "abc". -/
def txNanFix : ParsedTransactionWithMeta :=
  ⟨[], some ⟨[], [], some [⟨some "USDC", some "A", ⟨some "abc"⟩⟩], none⟩, none⟩

/-- A transaction carrying native balances for the watched address at
account index 0. -/
def txNative : ParsedTransactionWithMeta :=
  ⟨["A"], some ⟨[1000000000], [3000000000], none, none⟩, none⟩

/-! ## Claims -/

/-- C1: whenever extraction succeeds, the result's delta (`uiAmount`)
equals its `postAmount` minus its `preAmount` — in both deployment
variants, with JavaScript-number subtraction `JSNum.sub`; there is no
independent computation path. -/
theorem C1_delta_eq_post_sub_pre (env : Env) (tx : Option ParsedTransactionWithMeta)
    (sig : String) (r₁ r₂ : TransactionResult) :
    (fetchAndProcessSolanaTransaction env tx sig = some r₁ →
      r₁.uiAmount = r₁.postAmount.sub r₁.preAmount) ∧
    (processTransaction env tx sig = some r₂ →
      r₂.uiAmount = r₂.postAmount.sub r₂.preAmount) := by
  constructor
  · intro h
    obtain ⟨t, meta, -, -, -, hr⟩ := (serv_eq_some_iff env tx sig r₁).mp h
    subst hr
    rfl
  · intro h
    obtain ⟨t, meta, -, -, -, hr⟩ := (expr_eq_some_iff env tx sig r₂).mp h
    subst hr
    rfl

/-- Witness for C1 at a concrete successful extraction in each variant. -/
theorem C1_delta_eq_post_sub_pre_witness :
    (TransactionResult.uiAmount ⟨"sig", JSNum.nan, JSNum.num 0, JSNum.nan, none⟩ =
      (TransactionResult.postAmount ⟨"sig", JSNum.nan, JSNum.num 0, JSNum.nan, none⟩).sub
        (TransactionResult.preAmount ⟨"sig", JSNum.nan, JSNum.num 0, JSNum.nan, none⟩)) ∧
    (TransactionResult.uiAmount ⟨"sig", JSNum.nan, JSNum.num 0, JSNum.nan, none⟩ =
      (TransactionResult.postAmount ⟨"sig", JSNum.nan, JSNum.num 0, JSNum.nan, none⟩).sub
        (TransactionResult.preAmount ⟨"sig", JSNum.nan, JSNum.num 0, JSNum.nan, none⟩)) :=
  ⟨(C1_delta_eq_post_sub_pre envUsdc (some txNanFix) "sig"
      ⟨"sig", JSNum.nan, JSNum.num 0, JSNum.nan, none⟩
      ⟨"sig", JSNum.nan, JSNum.num 0, JSNum.nan, none⟩).1 (by decide),
   (C1_delta_eq_post_sub_pre envUsdc (some txNanFix) "sig"
      ⟨"sig", JSNum.nan, JSNum.num 0, JSNum.nan, none⟩
      ⟨"sig", JSNum.nan, JSNum.num 0, JSNum.nan, none⟩).2 (by decide)⟩

/-- C9: both extractors are deterministic — two runs on identical
(record, signature, criteria) triples produce identical results.  The
embedding makes both cores pure functions of exactly these inputs, so
determinism is equality of the function values. -/
theorem C9_deterministic (env env' : Env) (tx tx' : Option ParsedTransactionWithMeta)
    (sig sig' : String) (he : env = env') (ht : tx = tx') (hs : sig = sig') :
    fetchAndProcessSolanaTransaction env tx sig =
      fetchAndProcessSolanaTransaction env' tx' sig' ∧
    processTransaction env tx sig = processTransaction env' tx' sig' := by
  subst he
  subst ht
  subst hs
  exact ⟨rfl, rfl⟩

/-- Witness for C9 at concrete identical triples. -/
theorem C9_deterministic_witness :
    fetchAndProcessSolanaTransaction envUsdc (some txNanFix) "sig" =
      fetchAndProcessSolanaTransaction envUsdc (some txNanFix) "sig" ∧
    processTransaction envUsdc (some txNanFix) "sig" =
      processTransaction envUsdc (some txNanFix) "sig" :=
  C9_deterministic envUsdc envUsdc (some txNanFix) (some txNanFix) "sig" "sig"
    rfl rfl rfl

/-- C10: for a successful extraction in either variant, the result's
timestamp is `null` exactly when the record's block time is absent or
zero — a block time of exactly 0 (the epoch instant) is falsy in
JavaScript and therefore indistinguishable from an absent block time at
the public interface. -/
theorem C10_timestamp_none_iff (env : Env) (t : ParsedTransactionWithMeta)
    (sig : String) (r₁ r₂ : TransactionResult) :
    (fetchAndProcessSolanaTransaction env (some t) sig = some r₁ →
      (r₁.timestamp = none ↔ t.blockTime = none ∨ t.blockTime = some 0)) ∧
    (processTransaction env (some t) sig = some r₂ →
      (r₂.timestamp = none ↔ t.blockTime = none ∨ t.blockTime = some 0)) := by
  constructor
  · intro h
    obtain ⟨t', meta, ht', -, -, hr⟩ := (serv_eq_some_iff env (some t) sig r₁).mp h
    cases ht'
    subst hr
    exact jsTimestamp_eq_none_iff t.blockTime
  · intro h
    obtain ⟨t', meta, ht', -, -, hr⟩ := (expr_eq_some_iff env (some t) sig r₂).mp h
    cases ht'
    subst hr
    exact jsTimestamp_eq_none_iff t.blockTime

/-- Witness for C10: a record whose block time is exactly 0 extracts
successfully with a `null` timestamp. -/
theorem C10_timestamp_none_iff_witness :
    (TransactionResult.timestamp ⟨"sig", JSNum.nan, JSNum.num 0, JSNum.nan, none⟩ = none ↔
      ParsedTransactionWithMeta.blockTime
          ⟨[], some ⟨[], [], some [⟨some "USDC", some "A", ⟨some "abc"⟩⟩], none⟩, some 0⟩ = none ∨
        ParsedTransactionWithMeta.blockTime
          ⟨[], some ⟨[], [], some [⟨some "USDC", some "A", ⟨some "abc"⟩⟩], none⟩, some 0⟩ = some 0) :=
  (C10_timestamp_none_iff envUsdc
      ⟨[], some ⟨[], [], some [⟨some "USDC", some "A", ⟨some "abc"⟩⟩], none⟩, some 0⟩ "sig"
      ⟨"sig", JSNum.nan, JSNum.num 0, JSNum.nan, none⟩
      ⟨"sig", JSNum.nan, JSNum.num 0, JSNum.nan, none⟩).1 (by decide)

/-- C5: both extractors return "not applicable" (`none`) for a null
record, a record without metadata, an unset (falsy) watched address,
and an unset (falsy) asset selector.  The never-raises half of the
claim is captured by the embedding itself: both cores are total Lean
functions into `Option TransactionResult`, with every failure mode
internal to parsing mapped to a value (`none` or a NaN amount), never
to an exception. -/
theorem C5_not_applicable (env : Env) (t : ParsedTransactionWithMeta) (sig : String) :
    (fetchAndProcessSolanaTransaction env none sig = none) ∧
    (processTransaction env none sig = none) ∧
    (t.meta = none → fetchAndProcessSolanaTransaction env (some t) sig = none) ∧
    (t.meta = none → processTransaction env (some t) sig = none) ∧
    (envTruthy env.solanaAddr = false →
      fetchAndProcessSolanaTransaction env (some t) sig = none ∧
      processTransaction env (some t) sig = none) ∧
    (envTruthy env.usdcMint = false →
      fetchAndProcessSolanaTransaction env (some t) sig = none ∧
      processTransaction env (some t) sig = none) := by
  obtain ⟨ak, mt, bt⟩ := t
  refine ⟨?_, rfl, ?_, ?_, ?_, ?_⟩
  · unfold fetchAndProcessSolanaTransaction
    split <;> rfl
  · intro hm
    have hm' : mt = none := hm
    subst hm'
    unfold fetchAndProcessSolanaTransaction
    split <;> rfl
  · intro hm
    have hm' : mt = none := hm
    subst hm'
    rfl
  · intro ha
    constructor
    · unfold fetchAndProcessSolanaTransaction
      simp [ha]
    · cases mt with
      | none => rfl
      | some meta =>
        unfold processTransaction
        simp [ha]
  · intro hu
    constructor
    · unfold fetchAndProcessSolanaTransaction
      simp [hu]
    · cases mt with
      | none => rfl
      | some meta =>
        unfold processTransaction
        simp [hu]

/-- Witness for C5 at concrete inputs: a metadata-less record and
criteria with an empty address / empty selector. -/
theorem C5_not_applicable_witness :
    ParsedTransactionWithMeta.meta ⟨[], none, none⟩ = none ∧
    envTruthy (Env.solanaAddr ⟨some "USDC", some ""⟩) = false ∧
    fetchAndProcessSolanaTransaction ⟨some "USDC", some ""⟩ (some ⟨[], none, none⟩) "sig" = none :=
  ⟨rfl, rfl,
    ((C5_not_applicable ⟨some "USDC", some ""⟩ ⟨[], none, none⟩ "sig").2.2.2.2.1
      (by decide)).1⟩

/-- C2 (code bug): the serverless GET-by-signature handler never
consults the persistence store — it performs a live ledger fetch
unconditionally.  `fetchTransactionFromDb` exists in the source but is
dead code: no handler calls it.  At the failing input below the store
holds a record for signature "S1", yet `handleGetTransaction` answers
from a live fetch (source tag "live_solana_api", one ledger call, zero
store reads), and its answer is the same for every store whatsoever. -/
theorem C2_get_never_consults_store :
    fetchTransactionFromDb
        (fun s => if s = "S1" then some ⟨"S1", JSNum.num 7, JSNum.num 7, JSNum.num 0, none⟩ else none)
        "S1" = some ⟨"S1", JSNum.num 7, JSNum.num 7, JSNum.num 0, none⟩ ∧
    handleGetTransaction envUsdc
        (fun s => if s = "S1" then some ⟨"S1", JSNum.num 7, JSNum.num 7, JSNum.num 0, none⟩ else none)
        (fun _ => some txNanFix) "S1" =
      (GetResponse.ok "S1" JSNum.nan none "live_solana_api", 1, 0) ∧
    (∀ store store' : String → Option StoredTransactionData,
      handleGetTransaction envUsdc store (fun _ => some txNanFix) "S1" =
        handleGetTransaction envUsdc store' (fun _ => some txNanFix) "S1") :=
  ⟨by decide, by decide, fun _ _ => rfl⟩

/-- C3 counterexample: in token mode, the matching token-balance entry
carries the malformed (but truthy) amount string "abc"; `parseFloat`
yields NaN for it, so extraction succeeds with a NaN `preAmount` —
refuting "parsing yields zero whenever the string is malformed" and
"parsing never produces a non-numeric value such as NaN".  (Both
variants share the identical parse expression; the serverless one is
evaluated here.) -/
theorem C3_counterexample :
    fetchAndProcessSolanaTransaction envUsdc (some txNanFix) "sig" =
      some ⟨"sig", JSNum.nan, JSNum.num 0, JSNum.nan, none⟩ ∧
    processTransaction envUsdc (some txNanFix) "sig" =
      some ⟨"sig", JSNum.nan, JSNum.num 0, JSNum.nan, none⟩ ∧
    JSNum.nan ≠ JSNum.num 0 := by
  refine ⟨by decide, by decide, by decide⟩

/-- C3 amended: parsing yields zero whenever the matched entry's amount
string is absent or empty (and when no entry matches at all), and the
parse never raises — but a non-empty malformed string follows JavaScript
`parseFloat` semantics and can yield NaN instead of zero.  The zero
cases, at the extraction level for the serverless core (the Express
core uses the identical `tokenAmount` expression): a matched pre-side
entry with an absent or empty string contributes `preAmount = 0`. -/
theorem C3_amended_parse_zero (tb : TokenBalance) (env : Env)
    (t : ParsedTransactionWithMeta) (meta : TxMeta) (sig : String)
    (r : TransactionResult)
    (hstr : tb.uiTokenAmount.uiAmountString = none ∨
      tb.uiTokenAmount.uiAmountString = some "") :
    tokenAmount none = JSNum.num 0 ∧
    tokenAmount (some tb) = JSNum.num 0 ∧
    (fetchAndProcessSolanaTransaction env (some t) sig = some r →
      t.meta = some meta →
      jsToUpper (env.usdcMint.getD "") ≠ "SOL" →
      meta.preTokenBalances.bind
        (List.find? (servMatch (env.usdcMint.getD "") (env.solanaAddr.getD ""))) = some tb →
      r.preAmount = JSNum.num 0) := by
  have hz : tokenAmount (some tb) = JSNum.num 0 := by
    cases hstr with
    | inl h => simp [tokenAmount, h]
    | inr h =>
      simp only [tokenAmount, h]
      rfl
  refine ⟨rfl, hz, ?_⟩
  intro hok hmeta hsol hfind
  obtain ⟨t', meta', ht', hm', -, hr⟩ := (serv_eq_some_iff env (some t) sig r).mp hok
  cases ht'
  rw [hmeta] at hm'
  cases hm'
  subst hr
  show (servAmounts (env.usdcMint.getD "") (env.solanaAddr.getD "") t meta).1 = JSNum.num 0
  unfold servAmounts
  have hcond : (jsToUpper (env.usdcMint.getD "") == "SOL") = false := by
    simp [hsol]
  rw [hcond]
  simp only [Bool.false_eq_true, if_false]
  rw [hfind]
  exact hz

/-- Witness for C3's amended statement: a matched entry whose amount
string is absent contributes a zero `preAmount`. -/
theorem C3_amended_parse_zero_witness :
    tokenAmount none = JSNum.num 0 ∧
    tokenAmount (some ⟨some "USDC", some "A", ⟨none⟩⟩) = JSNum.num 0 ∧
    TransactionResult.preAmount
      ⟨"sig", JSNum.num 0, JSNum.num 0, (JSNum.num 0).sub (JSNum.num 0), none⟩ =
      JSNum.num 0 := by
  have h := C3_amended_parse_zero ⟨some "USDC", some "A", ⟨none⟩⟩ envUsdc
    ⟨[], some ⟨[], [], some [⟨some "USDC", some "A", ⟨none⟩⟩], none⟩, none⟩
    ⟨[], [], some [⟨some "USDC", some "A", ⟨none⟩⟩], none⟩ "sig"
    ⟨"sig", JSNum.num 0, JSNum.num 0, (JSNum.num 0).sub (JSNum.num 0), none⟩ (Or.inl rfl)
  exact ⟨h.1, h.2.1, h.2.2 rfl rfl (by decide) rfl⟩

/-- C4 counterexample: with the asset selector "SOL" and a record
carrying native balances for the watched address, the serverless
extractor takes its native-coin branch (pre 1 SOL, post 3 SOL, delta 2)
while the Express extractor treats "SOL" as a token mint and finds no
matching token balance (all-zero result) — the two variants are not
functionally equivalent. -/
theorem C4_counterexample :
    fetchAndProcessSolanaTransaction envSolC (some txNative) "sig" ≠
      processTransaction envSolC (some txNative) "sig" := by
  have h1 : fetchAndProcessSolanaTransaction envSolC (some txNative) "sig" =
      some ⟨"sig", JSNum.num (1000000000 / lamportsPerSol),
        JSNum.num (3000000000 / lamportsPerSol),
        JSNum.num (3000000000 / lamportsPerSol - 1000000000 / lamportsPerSol),
        none⟩ := rfl
  have h2 : processTransaction envSolC (some txNative) "sig" =
      some ⟨"sig", JSNum.num 0, JSNum.num 0, JSNum.num (0 - 0), none⟩ := rfl
  rw [h1, h2]
  norm_num [lamportsPerSol]

/-- C4 amended: the two variants' extractors agree on every input whose
asset selector is not case-insensitively equal to "SOL" (including all
inputs with unset criteria or missing records); they diverge only on the
native-coin sentinel, which exists solely in the serverless variant. -/
theorem C4_amended_equiv (env : Env) (tx : Option ParsedTransactionWithMeta)
    (sig : String) (hsol : jsToUpper (env.usdcMint.getD "") ≠ "SOL") :
    fetchAndProcessSolanaTransaction env tx sig = processTransaction env tx sig := by
  by_cases hc : (envTruthy env.usdcMint && envTruthy env.solanaAddr) = true
  · cases tx with
    | none => simp [fetchAndProcessSolanaTransaction, processTransaction, hc]
    | some t =>
      obtain ⟨ak, mt, bt⟩ := t
      cases mt with
      | none => simp [fetchAndProcessSolanaTransaction, processTransaction, hc]
      | some meta =>
        have hab := hc
        rw [Bool.and_eq_true] at hab
        have hmintNe := envTruthy_getD_ne env.usdcMint hab.1
        have haddrNe := envTruthy_getD_ne env.solanaAddr hab.2
        have hfun : List.find? (servMatch (env.usdcMint.getD "") (env.solanaAddr.getD "")) =
            List.find? (exprMatch (env.usdcMint.getD "") (env.solanaAddr.getD "")) :=
          funext (find?_pred_congr _ _
            (servMatch_eq_exprMatch _ _ hmintNe haddrNe))
        have hcond : (jsToUpper (env.usdcMint.getD "") == "SOL") = false := by
          simp [hsol]
        unfold fetchAndProcessSolanaTransaction processTransaction servAmounts
        simp only [hc, Bool.not_true, Bool.false_eq_true, if_false, hcond, hfun]
  · cases tx with
    | none => simp [fetchAndProcessSolanaTransaction, processTransaction, hc]
    | some t =>
      obtain ⟨ak, mt, bt⟩ := t
      cases mt with
      | none => simp [fetchAndProcessSolanaTransaction, processTransaction, hc]
      | some meta => simp [fetchAndProcessSolanaTransaction, processTransaction, hc]

/-- Witness for C4's amended statement at a concrete token-mint
selector. -/
theorem C4_amended_equiv_witness :
    fetchAndProcessSolanaTransaction envUsdc (some txNanFix) "sig" =
      processTransaction envUsdc (some txNanFix) "sig" :=
  C4_amended_equiv envUsdc (some txNanFix) "sig" (by decide)

/-- C6: in token mode, the pre- and post- token-balance lists are
scanned independently for an entry matching (mint, owner); when neither
side has a matching entry both amounts default to zero and extraction
succeeds with preAmount 0, postAmount 0 and delta 0 — not an error and
not "not applicable" — in both variants (the serverless one in its
token branch, i.e. when the selector is not the native-coin sentinel). -/
theorem C6_token_mode_zero (env : Env) (t : ParsedTransactionWithMeta)
    (meta : TxMeta) (sig : String)
    (hmeta : t.meta = some meta)
    (hmint : envTruthy env.usdcMint = true)
    (haddr : envTruthy env.solanaAddr = true)
    (hpre : ∀ b ∈ meta.preTokenBalances.getD [],
      ¬(b.mint = some (env.usdcMint.getD "") ∧ b.owner = some (env.solanaAddr.getD "")))
    (hpost : ∀ b ∈ meta.postTokenBalances.getD [],
      ¬(b.mint = some (env.usdcMint.getD "") ∧ b.owner = some (env.solanaAddr.getD ""))) :
    (jsToUpper (env.usdcMint.getD "") ≠ "SOL" →
      fetchAndProcessSolanaTransaction env (some t) sig =
        some ⟨sig, JSNum.num 0, JSNum.num 0, JSNum.num 0, jsTimestamp t.blockTime⟩) ∧
    processTransaction env (some t) sig =
      some ⟨sig, JSNum.num 0, JSNum.num 0, JSNum.num 0, jsTimestamp t.blockTime⟩ := by
  have hmintNe := envTruthy_getD_ne env.usdcMint hmint
  have haddrNe := envTruthy_getD_ne env.solanaAddr haddr
  have hservF : ∀ b : TokenBalance,
      ¬(b.mint = some (env.usdcMint.getD "") ∧ b.owner = some (env.solanaAddr.getD "")) →
      servMatch (env.usdcMint.getD "") (env.solanaAddr.getD "") b = false := by
    intro b hnb
    cases hsb : servMatch (env.usdcMint.getD "") (env.solanaAddr.getD "") b with
    | false => rfl
    | true =>
      exfalso
      apply hnb
      simpa only [servMatch, Bool.and_eq_true, beq_iff_eq] using hsb
  have hexprF : ∀ b : TokenBalance,
      ¬(b.mint = some (env.usdcMint.getD "") ∧ b.owner = some (env.solanaAddr.getD "")) →
      exprMatch (env.usdcMint.getD "") (env.solanaAddr.getD "") b = false := by
    intro b hnb
    rw [← servMatch_eq_exprMatch _ _ hmintNe haddrNe]
    exact hservF b hnb
  have hpreS : meta.preTokenBalances.bind
      (List.find? (servMatch (env.usdcMint.getD "") (env.solanaAddr.getD ""))) = none := by
    cases hb : meta.preTokenBalances with
    | none => rfl
    | some l =>
      show l.find? (servMatch (env.usdcMint.getD "") (env.solanaAddr.getD "")) = none
      rw [List.find?_eq_none]
      intro b hbm
      rw [hb] at hpre
      simp only [Option.getD_some] at hpre
      simp [hservF b (hpre b hbm)]
  have hpostS : meta.postTokenBalances.bind
      (List.find? (servMatch (env.usdcMint.getD "") (env.solanaAddr.getD ""))) = none := by
    cases hb : meta.postTokenBalances with
    | none => rfl
    | some l =>
      show l.find? (servMatch (env.usdcMint.getD "") (env.solanaAddr.getD "")) = none
      rw [List.find?_eq_none]
      intro b hbm
      rw [hb] at hpost
      simp only [Option.getD_some] at hpost
      simp [hservF b (hpost b hbm)]
  have hpreE : meta.preTokenBalances.bind
      (List.find? (exprMatch (env.usdcMint.getD "") (env.solanaAddr.getD ""))) = none := by
    cases hb : meta.preTokenBalances with
    | none => rfl
    | some l =>
      show l.find? (exprMatch (env.usdcMint.getD "") (env.solanaAddr.getD "")) = none
      rw [List.find?_eq_none]
      intro b hbm
      rw [hb] at hpre
      simp only [Option.getD_some] at hpre
      simp [hexprF b (hpre b hbm)]
  have hpostE : meta.postTokenBalances.bind
      (List.find? (exprMatch (env.usdcMint.getD "") (env.solanaAddr.getD ""))) = none := by
    cases hb : meta.postTokenBalances with
    | none => rfl
    | some l =>
      show l.find? (exprMatch (env.usdcMint.getD "") (env.solanaAddr.getD "")) = none
      rw [List.find?_eq_none]
      intro b hbm
      rw [hb] at hpost
      simp only [Option.getD_some] at hpost
      simp [hexprF b (hpost b hbm)]
  constructor
  · intro hsol
    rw [serv_eq_some_iff]
    refine ⟨t, meta, rfl, hmeta, by rw [hmint, haddr]; rfl, ?_⟩
    have hA : servAmounts (env.usdcMint.getD "") (env.solanaAddr.getD "") t meta =
        (JSNum.num 0, JSNum.num 0) := by
      unfold servAmounts
      have hcond : (jsToUpper (env.usdcMint.getD "") == "SOL") = false := by
        simp [hsol]
      rw [hcond]
      simp only [Bool.false_eq_true, if_false]
      rw [hpreS, hpostS]
      rfl
    rw [hA]
    simp [JSNum.sub]
  · rw [expr_eq_some_iff]
    refine ⟨t, meta, rfl, hmeta, by rw [hmint, haddr]; rfl, ?_⟩
    rw [hpreE, hpostE]
    simp [tokenAmount, JSNum.sub]

/-- Witness for C6 at a concrete record whose token lists contain no
entry for the watched (mint, owner) pair. -/
theorem C6_token_mode_zero_witness :
    fetchAndProcessSolanaTransaction envUsdc
        (some ⟨[], some ⟨[], [], some [⟨some "OTHER", some "A", ⟨some "1"⟩⟩], none⟩, none⟩)
        "sig" =
      some ⟨"sig", JSNum.num 0, JSNum.num 0, JSNum.num 0, none⟩ ∧
    processTransaction envUsdc
        (some ⟨[], some ⟨[], [], some [⟨some "OTHER", some "A", ⟨some "1"⟩⟩], none⟩, none⟩)
        "sig" =
      some ⟨"sig", JSNum.num 0, JSNum.num 0, JSNum.num 0, none⟩ :=
  ⟨(C6_token_mode_zero envUsdc
      ⟨[], some ⟨[], [], some [⟨some "OTHER", some "A", ⟨some "1"⟩⟩], none⟩, none⟩
      ⟨[], [], some [⟨some "OTHER", some "A", ⟨some "1"⟩⟩], none⟩ "sig"
      rfl rfl rfl (by decide) (by decide)).1 (by decide),
   (C6_token_mode_zero envUsdc
      ⟨[], some ⟨[], [], some [⟨some "OTHER", some "A", ⟨some "1"⟩⟩], none⟩, none⟩
      ⟨[], [], some [⟨some "OTHER", some "A", ⟨some "1"⟩⟩], none⟩ "sig"
      rfl rfl rfl (by decide) (by decide)).2⟩

/-- C7: in the serverless native-coin mode (selector case-insensitively
"SOL"): a watched address absent from the account keys yields a
successful all-zero result; an address found at index `i` yields the
pre/post native balances at `i` (missing entries defaulting to 0)
divided by the fixed divisor 10^9; and the division is exact for round
inputs — a balance of 1_000_000_000 smallest units gives exactly 1. -/
theorem C7_native_mode (env : Env) (t : ParsedTransactionWithMeta)
    (meta : TxMeta) (sig : String)
    (hmeta : t.meta = some meta)
    (hmint : envTruthy env.usdcMint = true)
    (haddr : envTruthy env.solanaAddr = true)
    (hsol : jsToUpper (env.usdcMint.getD "") = "SOL") :
    (env.solanaAddr.getD "" ∉ t.accountKeys →
      fetchAndProcessSolanaTransaction env (some t) sig =
        some ⟨sig, JSNum.num 0, JSNum.num 0, JSNum.num 0, jsTimestamp t.blockTime⟩) ∧
    (∀ i, t.accountKeys.findIdx? (fun k => k == env.solanaAddr.getD "") = some i →
      fetchAndProcessSolanaTransaction env (some t) sig =
        some ⟨sig,
          JSNum.num ((meta.preBalances[i]?).getD 0 / lamportsPerSol),
          JSNum.num ((meta.postBalances[i]?).getD 0 / lamportsPerSol),
          JSNum.num ((meta.postBalances[i]?).getD 0 / lamportsPerSol -
            (meta.preBalances[i]?).getD 0 / lamportsPerSol),
          jsTimestamp t.blockTime⟩) ∧
    (∀ i, t.accountKeys.findIdx? (fun k => k == env.solanaAddr.getD "") = some i →
      (meta.preBalances[i]?).getD 0 = 1000000000 →
      ∃ r, fetchAndProcessSolanaTransaction env (some t) sig = some r ∧
        r.preAmount = JSNum.num 1) := by
  have hcond : (jsToUpper (env.usdcMint.getD "") == "SOL") = true := by
    simp [hsol]
  have main : ∀ i, t.accountKeys.findIdx? (fun k => k == env.solanaAddr.getD "") = some i →
      fetchAndProcessSolanaTransaction env (some t) sig =
        some ⟨sig,
          JSNum.num ((meta.preBalances[i]?).getD 0 / lamportsPerSol),
          JSNum.num ((meta.postBalances[i]?).getD 0 / lamportsPerSol),
          JSNum.num ((meta.postBalances[i]?).getD 0 / lamportsPerSol -
            (meta.preBalances[i]?).getD 0 / lamportsPerSol),
          jsTimestamp t.blockTime⟩ := by
    intro i hidx
    rw [serv_eq_some_iff]
    refine ⟨t, meta, rfl, hmeta, by rw [hmint, haddr]; rfl, ?_⟩
    have hA : servAmounts (env.usdcMint.getD "") (env.solanaAddr.getD "") t meta =
        (JSNum.num ((meta.preBalances[i]?).getD 0 / lamportsPerSol),
         JSNum.num ((meta.postBalances[i]?).getD 0 / lamportsPerSol)) := by
      unfold servAmounts
      rw [hcond]
      simp only [if_true]
      rw [hidx]
    rw [hA]
    simp [JSNum.sub]
  refine ⟨?_, main, ?_⟩
  · intro hnot
    have hidx : t.accountKeys.findIdx? (fun k => k == env.solanaAddr.getD "") = none := by
      rw [List.findIdx?_eq_none_iff]
      intro x hx
      have hne : x ≠ env.solanaAddr.getD "" := by
        intro hEq
        exact hnot (hEq ▸ hx)
      simp [hne]
    rw [serv_eq_some_iff]
    refine ⟨t, meta, rfl, hmeta, by rw [hmint, haddr]; rfl, ?_⟩
    have hA : servAmounts (env.usdcMint.getD "") (env.solanaAddr.getD "") t meta =
        (JSNum.num 0, JSNum.num 0) := by
      unfold servAmounts
      rw [hcond]
      simp only [if_true]
      rw [hidx]
    rw [hA]
    simp [JSNum.sub]
  · intro i hidx hround
    refine ⟨_, main i hidx, ?_⟩
    show JSNum.num ((meta.preBalances[i]?).getD 0 / lamportsPerSol) = JSNum.num 1
    rw [hround]
    norm_num [lamportsPerSol]

/-- Witness for C7 at a concrete native-mode record with a round
1_000_000_000-lamport pre-balance. -/
theorem C7_native_mode_witness :
    ∃ r, fetchAndProcessSolanaTransaction envSolC (some txNative) "sig" = some r ∧
      r.preAmount = JSNum.num 1 :=
  (C7_native_mode envSolC txNative ⟨[1000000000], [3000000000], none, none⟩ "sig"
      rfl rfl rfl (by decide)).2.2 0 (by decide) (by norm_num)

/-- C8 counterexample: the payload `⟨no array, no event.transaction,
signature "S1"⟩` is exactly spec shape 3 (an object with a direct
signature field), yet the Express webhook handler — one of the two
cited webhook ingestion handlers — responds 400 and performs no
extraction (0 ledger calls), while the serverless handler accepts it
(200, one ledger call): the three-shape priority chain exists only in
the serverless variant. -/
theorem C8_counterexample :
    expressWebhookPost envUsdc (fun _ => some txNanFix) ⟨none, none, some "S1"⟩ =
      (400, 0) ∧
    WebhookBody.signature ⟨none, none, some "S1"⟩ = some "S1" ∧
    handleWebhookPost envUsdc (fun _ => some txNanFix) true ⟨none, none, some "S1"⟩ =
      (200, 1) := by
  refine ⟨by decide, rfl, by decide⟩

/-- C8 amended: in the serverless variant the three payload shapes are
checked in priority order with the first match winning — in particular
a truthy shape-1 signature wins over everything else — and a payload
matching no shape gets a 400 response with no extraction attempted; the
Express variant's handler accepts only shape 2
(`event.transaction[0].signature`) and responds 400, without
extraction, to every other payload. -/
theorem C8_amended_shapes (body : WebhookBody) (e : WebhookElem)
    (rest : List WebhookElem) (s : String) (env : Env)
    (ledger : String → Option ParsedTransactionWithMeta) (ok : Bool) :
    (body.arrayElems = some (e :: rest) → truthyOpt e.signature = some s →
      extractWebhookSignature body = some s) ∧
    (extractWebhookSignature body = none →
      handleWebhookPost env ledger ok body = (400, 0)) ∧
    (shape2Signature body = none → expressWebhookPost env ledger body = (400, 0)) := by
  refine ⟨?_, ?_, ?_⟩
  · intro harr htr
    unfold extractWebhookSignature
    rw [harr]
    simp only [htr]
  · intro h
    unfold handleWebhookPost
    rw [h]
  · intro h
    unfold expressWebhookPost expressWebhookSignature
    rw [h]

/-- Witness for C8's amended statement: a payload matching shapes 1 and
3 simultaneously resolves to the shape-1 signature; a shapeless payload
is rejected by the serverless handler; a shape-3 payload is rejected by
the Express handler. -/
theorem C8_amended_shapes_witness :
    extractWebhookSignature ⟨some [⟨some "A1"⟩], none, some "S3"⟩ = some "A1" ∧
    handleWebhookPost envUsdc (fun _ => some txNanFix) true ⟨none, none, none⟩ =
      (400, 0) ∧
    expressWebhookPost envUsdc (fun _ => some txNanFix) ⟨none, none, some "S1"⟩ =
      (400, 0) :=
  ⟨(C8_amended_shapes ⟨some [⟨some "A1"⟩], none, some "S3"⟩ ⟨some "A1"⟩ [] "A1"
      envUsdc (fun _ => some txNanFix) true).1 rfl rfl,
   (C8_amended_shapes ⟨none, none, none⟩ ⟨none⟩ [] "" envUsdc
      (fun _ => some txNanFix) true).2.1 rfl,
   (C8_amended_shapes ⟨none, none, some "S1"⟩ ⟨none⟩ [] "" envUsdc
      (fun _ => some txNanFix) true).2.2 rfl⟩

end SolanaListener
